import Mathlib

/-!
Shallow embedding of the filesystem-safety layer of osquery
(osquery/filesystem/filesystem.cpp) and proofs about the frozen claims.

Conventions of the embedding:
* Strings are modelled as lists of characters (`Str`), following the POSIX
  configuration of the source: `boost::filesystem::path::make_preferred` is
  the identity, `fs::path(s).string() = s`, and the directory separator is
  the forward slash.  The backslash tests of the source are kept verbatim.
* Filesystem and platform calls (`fs::current_path`, `fs::canonical`,
  `isDirectory`, `platformGlob`, the `PlatformFile` queries, the status
  results of `platformIsTmpDir` and `platformIsFileAccessible`) are supplied
  as explicit oracle parameters in environment records; the control flow of
  the embedded functions is translated line by line from the source.
* The process-wide gflags (`read_max`, `read_user_max`, `allow_unsafe`,
  `disable_forensic`) are carried in a `Flags` record.
* `std::string` indexing at position `size()` yields the null character
  (well defined in C++11); the embedding uses `List.getD` with `nullChar`
  as the default, which matches that behaviour.
-/

namespace Osquery

/-- Character strings of the C++ source, modelled as lists of characters. -/
abbrev Str := List Char

/-- The null character, the value of the C++ expression s[s.size()]. -/
def nullChar : Char := Char.ofNat 0

/-- The osquery Status value: an integer code plus a message.  ok() holds
exactly when the code is zero, as in the source. -/
structure Status where
  code : Int
  message : String
deriving DecidableEq

/-- Status::ok() of the source. -/
def Status.ok (s : Status) : Bool := s.code == 0

/-- Status::getCode() of the source. -/
def Status.getCode (s : Status) : Int := s.code

/-- The Status(0, "OK") value used on every success path of the source. -/
def okStatus : Status := ⟨0, "OK"⟩

/-- The Status(1, "File exceeds read limits") value produced by both
ceiling checks of readFile. -/
def readLimitStatus : Status := ⟨1, "File exceeds read limits"⟩

/-- The process-wide configuration flags declared at the top of
filesystem.cpp: FLAGS_read_max, FLAGS_read_user_max, FLAGS_allow_unsafe
and FLAGS_disable_forensic. -/
structure Flags where
  read_max : Nat
  read_user_max : Nat
  allow_unsafe : Bool
  disable_forensic : Bool
deriving DecidableEq

/-- The default values of the four flags in the source: 50 MiB, 10 MiB,
unsafe permissions disallowed, forensic preservation disabled. -/
def kDefaultFlags : Flags :=
  ⟨50 * 1024 * 1024, 10 * 1024 * 1024, false, true⟩

/-- GlobLimits of the source: the GLOB_FILES and GLOB_FOLDERS result-kind
bits and the GLOB_NO_CANON bit that skips base canonicalization. -/
structure GlobLimits where
  files : Bool
  folders : Bool
  noCanon : Bool
deriving DecidableEq

/-- GLOB_ALL of the source: files and folders, canonicalization enabled. -/
def globAll : GlobLimits := ⟨true, true, false⟩

/-- Oracle view of the filesystem used by the glob translator: the current
working directory, the canonicalizer (none models the error_code failure
that leaves an empty path), and the isDirectory test. -/
structure FsEnv where
  cwd : Str
  canonical : Str → Option Str
  isDir : Str → Bool

/-- Replacement of every SQL wildcard percent sign with a star, the
boost::replace_all step of replaceGlobWildcards.  The source guards the
call with a find, which is behaviourally the unconditional map. -/
def substPercent (p : Str) : Str :=
  p.map (fun c => if c == '%' then '*' else c)

/-- The relative-path test of replaceGlobWildcards, verbatim:
(size == 0 or (p[0] not a separator and (size > 3 and p[1] not a colon and
p[2] not a separator))) and p[0] is not a tilde.  Out-of-range reads
cannot occur: p[1] and p[2] are only read behind the size > 3 guard, and
p[0] of the empty string is the null character. -/
def relativeTest (q : Str) : Bool :=
  (q.isEmpty ||
    ((q.getD 0 nullChar != '/' && q.getD 0 nullChar != '\\') &&
      (decide (q.length > 3) && q.getD 1 nullChar != ':' &&
        q.getD 2 nullChar != '\\' && q.getD 2 nullChar != '/'))) &&
  q.getD 0 nullChar != '~'

/-- Appending of a path onto another, following boost::filesystem
operator/= on POSIX: an empty right operand leaves the left operand
unchanged, and a separator is inserted only when the left operand is
nonempty, does not already end in one, and the right operand does not
begin with one. -/
def pathAppend (a b : Str) : Str :=
  if b.isEmpty then a
  else if b.headD nullChar == '/' then a ++ b
  else if a.isEmpty then a ++ b
  else if a.getLastD nullChar == '/' then a ++ b
  else a ++ '/' :: b

/-- The pre-wildcard base of a pattern: pattern.substr(0, pattern.find
of the star), which is the longest star-free prefix. -/
def baseOf (q : Str) : Str := q.takeWhile (· != '*')

/-- The canonicalized base of replaceGlobWildcards: the base itself under
GLOB_NO_CANON, otherwise fs::canonical of the base, whose error_code
failure leaves the empty path. -/
def canonBase (env : FsEnv) (limits : GlobLimits) (q2 : Str) : Str :=
  if limits.noCanon then baseOf q2 else (env.canonical (baseOf q2)).getD []

/-- The canonicalization splice of replaceGlobWildcards, entered when the
base is nonempty: if the canonicalized base is nonempty and differs from
the base, re-splice the post-wildcard suffix onto it, appending a
separator first when the canonicalized base is a directory; otherwise the
pattern is unchanged. -/
def spliceCanon (env : FsEnv) (limits : GlobLimits) (q2 : Str) : Str :=
  if (canonBase env limits q2).length > 0 ∧
      canonBase env limits q2 ≠ baseOf q2 then
    (if env.isDir (canonBase env limits q2) then
        canonBase env limits q2 ++ ['/']
      else canonBase env limits q2) ++ q2.drop (baseOf q2).length
  else q2

/-- The pattern after the first two steps of replaceGlobWildcards:
percent substitution, then cwd prefixing when the relative-path test
holds. -/
def translateQ2 (env : FsEnv) (pattern : Str) : Str :=
  if relativeTest (substPercent pattern) then
    pathAppend env.cwd (substPercent pattern)
  else substPercent pattern

/-- replaceGlobWildcards of the source, translated step by step: percent
substitution, cwd prefixing behind the relative-path test, then base
canonicalization with the trailing-separator fixup for directories,
entered only when the base is nonempty. -/
def replaceGlobWildcards (env : FsEnv) (limits : GlobLimits) (pattern : Str) :
    Str :=
  if (baseOf (translateQ2 env pattern)).length > 0 then
    spliceCanon env limits (translateQ2 env pattern)
  else translateQ2 env pattern

/-- Oracle view of the platform calls made by safePermissions: the Status
of platformIsFileAccessible on the path, the Status of platformIsTmpDir on
the containing directory, validity of the opened descriptor, the Status of
isDirectory on the path, and the ownership, executability and
writability queries on the descriptor. -/
structure PermEnv where
  fileAccessible : Status
  isTmpDir : Status
  fdValid : Bool
  isDirStatus : Status
  isOwnerCurrentUser : Status
  isOwnerRoot : Status
  isExecutable : Status
  isNonWritable : Status
deriving DecidableEq

/-- safePermissions of the source, translated check for check with its
short-circuit early returns. -/
def safePermissions (flags : Flags) (env : PermEnv) (executable : Bool) :
    Bool :=
  if !env.fileAccessible.ok then false
  else if flags.allow_unsafe then true
  else if !env.isTmpDir.ok && decide (env.isTmpDir.getCode < 0) then false
  else if env.isTmpDir.ok then false
  else if !env.fdValid then false
  else if !env.isDirStatus.ok && decide (env.isDirStatus.getCode < 0) then
    false
  else if env.isDirStatus.ok then false
  else if env.isOwnerCurrentUser.ok || env.isOwnerRoot.ok then
    if executable &&
        (decide (0 < env.isExecutable.getCode) || !env.isNonWritable.ok) then
      false
    else true
  else false

/-- The kMaxRecursiveGlobs constant of the source. -/
def kMaxRecursiveGlobs : Nat := 64

/-- The position of the last occurrence of a double star in a pattern,
path.rfind of two stars: none models std::string::npos. -/
def rfindDoubleStar (p : Str) : Option Nat :=
  ((List.range p.length).filter
    (fun i => decide ((p.drop i).take 2 = ['*', '*']))).getLast?

/-- The loop exit test of genGlobs: glob_results.size() == 0, or
wild > path.size() (which for the unsigned npos of a failed rfind is
always true and for a found index never is), or wild < path.size() - 3
where the subtraction is the wrapping size_t one, so a found index in a
path shorter than three characters also exits. -/
def breakCondition (globResults : List Str) (path : Str) : Bool :=
  globResults.isEmpty ||
    match rfindDoubleStar path with
    | none => true
    | some w =>
      if path.length < 3 then true else decide (w < path.length - 3)

/-- The final kind filter of genGlobs: the remove_if predicate negated,
so keepMatch selects the entries that survive.  The source indexes
found[found.length() - 1]; `lastCharD` models that access with the
getD default at the out-of-range index of an empty string. -/
def lastCharD (s : Str) : Char := s.getD (s.length - 1) nullChar

/-- Retention predicate of the genGlobs result filter: keep a match when
it ends in a separator and folders are requested, or does not end in a
separator and files are requested. -/
def keepMatch (limits : GlobLimits) (found : Str) : Bool :=
  ((lastCharD found == '/' || lastCharD found == '\\') && limits.folders) ||
  ((lastCharD found != '/' && lastCharD found != '\\') && limits.files)

/-- The while loop of genGlobs. The source counts with
while (++glob_index < kMaxRecursiveGlobs) from glob_index = 0, so the
body runs at most kMaxRecursiveGlobs - 1 times; fuel is the number of
iterations the counter still allows.  The second component of the result
is the number of body iterations actually performed, made explicit so the
iteration bound can be stated. -/
def genGlobsLoop (pg : Str → List Str) :
    Nat → Str → List Str → List Str × Nat
  | 0, _, results => (results, 0)
  | fuel + 1, path, results =>
    let globResults := pg path
    let results2 := results ++ globResults
    if breakCondition globResults path then (results2, 1)
    else
      let r := genGlobsLoop pg fuel (path ++ ['/', '*', '*']) results2
      (r.1, r.2 + 1)

/-- genGlobs of the source: translate the pattern, run the bounded
recursive expansion loop, then prune with the kind filter.  pg is the
platformGlob oracle.  The iteration count of the loop is returned
alongside the results. -/
def genGlobs (env : FsEnv) (pg : Str → List Str) (path : Str)
    (results : List Str) (limits : GlobLimits) : List Str × Nat :=
  let path2 := replaceGlobWildcards env limits path
  let r := genGlobsLoop pg (kMaxRecursiveGlobs - 1) path2 results
  (r.1.filter (keepMatch limits), r.2)

/-- resolveFilePattern of the source: delegate to genGlobs and return
Status(0, "OK") unconditionally. -/
def resolveFilePattern (env : FsEnv) (pg : Str → List Str) (path : Str)
    (results : List Str) (setting : GlobLimits) : List Str × Status :=
  ((genGlobs env pg path results setting).1, okStatus)

/-- Access and modification timestamps of a file, the PlatformTime pair
captured by getFileTimes and written back by setFileTimes. -/
structure FileTimes where
  atime : Nat
  mtime : Nat
deriving DecidableEq

/-- Observable state of the file behind the opened handle: its byte
content and its timestamps. -/
structure FileState where
  bytes : List Nat
  times : FileTimes
deriving DecidableEq

/-- Oracle view of one readFile call: validity of the opened descriptor,
the special-file test, root ownership of the target, the size reported by
the descriptor, the state of the file, the access time the platform
records when the content is read, and the canonical path reported by a
dry run. -/
structure ReadEnv where
  fdValid : Bool
  isSpecial : Bool
  ownerRoot : Bool
  fdSize : Nat
  state : FileState
  accessTime : Nat
  canonicalPath : String
deriving DecidableEq

/-- The determined file size of readFile: the descriptor size, except
that a special file with a positive caller-supplied size hint uses the
hint. -/
def determinedSize (env : ReadEnv) (size : Nat) : Nat :=
  if env.isSpecial && size > 0 then size else env.fdSize

/-- The effective read ceiling of readFile: FLAGS_read_max for
root-owned targets, otherwise the minimum of FLAGS_read_max and
FLAGS_read_user_max. -/
def effectiveCeiling (flags : Flags) (env : ReadEnv) : Nat :=
  if env.ownerRoot then flags.read_max
  else min flags.read_max flags.read_user_max

/-- The streamed-read do-while loop of readFile: read a chunk of at most
blockSize bytes; while the chunk is nonempty, add its length to the
running total, fail with the read-limit status once the total reaches
readMax (without delivering that chunk), otherwise deliver the chunk and
continue.  A zero blockSize makes the first read return zero bytes and
the loop exit at once, as in the source. -/
def streamRead (blockSize readMax : Nat) (stream : List Nat)
    (total : Nat) : List (List Nat) × Status :=
  if h : blockSize = 0 ∨ stream = [] then ([], okStatus)
  else if readMax ≤ total + (stream.take blockSize).length then
    ([], readLimitStatus)
  else
    ((stream.take blockSize) ::
        (streamRead blockSize readMax (stream.drop blockSize)
          (total + (stream.take blockSize).length)).1,
      (streamRead blockSize readMax (stream.drop blockSize)
        (total + (stream.take blockSize).length)).2)
termination_by stream.length
decreasing_by
  all_goals
    simp only [List.length_drop]
    rcases not_or.mp h with ⟨hbs, hne⟩
    have hpos := List.length_pos.mpr hne
    omega

/-- Timestamp restoration after a read: setFileTimes runs only when
preserve_time was requested and FLAGS_disable_forensic is unset. -/
def restoreTimes (flags : Flags) (preserveTime : Bool) (times : FileTimes)
    (s : FileState) : FileState :=
  if preserveTime && !flags.disable_forensic then ⟨s.bytes, times⟩ else s

/-- State of the file after its content was read once: the platform
updates the access time, the modification time and content stay. -/
def afterReadState (env : ReadEnv) : FileState :=
  ⟨env.state.bytes, ⟨env.accessTime, env.state.times.mtime⟩⟩

/-- Result of one readFile call: the returned Status, the chunks
delivered to the predicate sink in order, and the final state of the
file. -/
structure ReadResult where
  status : Status
  delivered : List (List Nat)
  final : FileState
deriving DecidableEq

/-- readFile of the source (the chunked overload), translated step by
step: open check, determined size, ownership ceiling with its strict
comparison, dry-run early return, timestamp capture, then the streamed
path for a zero determined size or the single-shot path otherwise, and
finally the conditional timestamp restoration.  The single-shot chunk is
the string of file_size null bytes overwritten by the read, so it pads
with zeros when the stream is shorter than the determined size. -/
def readFile (flags : Flags) (env : ReadEnv) (size blockSize : Nat)
    (dryRun preserveTime : Bool) : ReadResult :=
  if !env.fdValid then
    ⟨⟨1, "Cannot open file for reading"⟩, [], env.state⟩
  else if effectiveCeiling flags env < determinedSize env size then
    ⟨readLimitStatus, [], env.state⟩
  else if dryRun then ⟨⟨0, env.canonicalPath⟩, [], env.state⟩
  else if determinedSize env size = 0 then
    if (streamRead blockSize (effectiveCeiling flags env)
        env.state.bytes 0).2.ok then
      ⟨okStatus,
        (streamRead blockSize (effectiveCeiling flags env)
          env.state.bytes 0).1,
        restoreTimes flags preserveTime env.state.times (afterReadState env)⟩
    else
      ⟨(streamRead blockSize (effectiveCeiling flags env)
          env.state.bytes 0).2,
        (streamRead blockSize (effectiveCeiling flags env)
          env.state.bytes 0).1,
        afterReadState env⟩
  else
    ⟨okStatus,
      [env.state.bytes.take (determinedSize env size) ++
        List.replicate (determinedSize env size - env.state.bytes.length) 0],
      restoreTimes flags preserveTime env.state.times (afterReadState env)⟩

/-! ## Concrete inputs used by counterexamples and witnesses -/

/-- Flag assignment with the allow-unsafe override set. -/
def c1Flags : Flags := ⟨0, 0, true, true⟩

/-- Permission oracle for an accessible directory outside any tmp
directory: platformIsFileAccessible succeeds, platformIsTmpDir says no
with a positive code, the descriptor opens, and isDirectory succeeds. -/
def c1Env : PermEnv :=
  ⟨⟨0, "OK"⟩, ⟨1, "not tmp"⟩, true, ⟨0, "OK"⟩, ⟨0, "OK"⟩, ⟨0, "OK"⟩,
    ⟨1, "not executable"⟩, ⟨0, "OK"⟩⟩

/-- Filesystem oracle whose cwd is /c and whose canonicalizer is the
identity on every existing path. -/
def c5Env : FsEnv := ⟨['/', 'c'], fun s => some s, fun _ => false⟩

/-- Filesystem oracle whose cwd is /c and whose canonicalizer always
fails. -/
def c6Env : FsEnv := ⟨['/', 'c'], fun _ => none, fun _ => false⟩

/-- Flag assignment with both read ceilings equal to four bytes. -/
def c2Flags : Flags := ⟨4, 4, false, true⟩

/-- Read oracle for a root-owned four-byte regular file. -/
def c2Env : ReadEnv := ⟨true, false, true, 4, ⟨[9, 9, 9, 9], ⟨5, 6⟩⟩, 7, "/f"⟩

/-- Flag assignment with both read ceilings equal to two bytes. -/
def c3Flags : Flags := ⟨2, 2, false, true⟩

/-- Read oracle for a root-owned three-byte stream whose descriptor
reports size zero, forcing the streamed path. -/
def c3Env : ReadEnv := ⟨true, false, true, 0, ⟨[1, 2, 3], ⟨5, 6⟩⟩, 7, "/f"⟩

/-- Flag assignment with both read ceilings equal to zero bytes. -/
def c9Flags : Flags := ⟨0, 0, false, true⟩

/-- Read oracle for a root-owned empty stream whose descriptor reports
size zero. -/
def c9Env : ReadEnv := ⟨true, false, true, 0, ⟨[], ⟨5, 6⟩⟩, 7, "/f"⟩

/-- Read oracle for a root-owned four-byte stream whose descriptor
reports size zero. -/
def c9WitEnv : ReadEnv :=
  ⟨true, false, true, 0, ⟨[1, 2, 3, 4], ⟨5, 6⟩⟩, 7, "/f"⟩

/-- Flag assignment with forensic preservation enabled and nine-byte
ceilings. -/
def c8Flags : Flags := ⟨9, 9, false, false⟩

/-! ## Helper lemmas -/

theorem substPercent_no_percent (p : Str) : '%' ∉ substPercent p := by
  intro hmem
  rcases List.mem_map.mp hmem with ⟨c, _, heq⟩
  by_cases h : c = '%' <;> simp [h] at heq

theorem substPercent_of_no_percent (p : Str) (h : '%' ∉ p) :
    substPercent p = p := by
  induction p with
  | nil => rfl
  | cons c t ih =>
    have hc : c ≠ '%' := fun hcp => h (hcp ▸ List.mem_cons_self c t)
    have ht : '%' ∉ t := fun hmt => h (List.mem_cons_of_mem c hmt)
    simp only [substPercent, List.map_cons] at ih ⊢
    rw [ih ht]
    simp [hc]

theorem substPercent_idem (p : Str) :
    substPercent (substPercent p) = substPercent p :=
  substPercent_of_no_percent _ (substPercent_no_percent p)

theorem prefix_pathAppend (a b : Str) : a <+: pathAppend a b := by
  unfold pathAppend
  split_ifs <;>
    first
      | exact List.prefix_refl a
      | exact List.prefix_append a _

theorem cwd_prefix_canonBase (env : FsEnv) (limits : GlobLimits) (q2 : Str)
    (hcanon : ∀ s r, env.canonical s = some r → env.cwd <+: r)
    (h1 : (canonBase env limits q2).length > 0 ∧
      canonBase env limits q2 ≠ baseOf q2) :
    env.cwd <+: canonBase env limits q2 := by
  unfold canonBase at h1 ⊢
  by_cases hnc : limits.noCanon = true
  · rw [if_pos hnc] at h1
    exact absurd rfl h1.2
  · rw [if_neg hnc] at h1 ⊢
    cases hc : env.canonical (baseOf q2) with
    | none => rw [hc] at h1; simp at h1
    | some r => simpa using hcanon _ _ hc

theorem cwd_prefix_spliceCanon (env : FsEnv) (limits : GlobLimits) (q2 : Str)
    (hpre : env.cwd <+: q2)
    (hcanon : ∀ s r, env.canonical s = some r → env.cwd <+: r) :
    env.cwd <+: spliceCanon env limits q2 := by
  unfold spliceCanon
  split_ifs with h1 h2
  · rw [List.append_assoc]
    exact (cwd_prefix_canonBase env limits q2 hcanon h1).trans
      (List.prefix_append _ _)
  · exact (cwd_prefix_canonBase env limits q2 hcanon h1).trans
      (List.prefix_append _ _)
  · exact hpre

theorem spliceCanon_of_canonBase_eq (env : FsEnv) (limits : GlobLimits)
    (q2 : Str) (h : canonBase env limits q2 = baseOf q2) :
    spliceCanon env limits q2 = q2 := by
  unfold spliceCanon
  rw [if_neg]
  intro hcontra
  exact hcontra.2 h

/-! ## Claim C1 -/

/-- C1 counterexample: with the allow-unsafe override set, an accessible
path that isDirectory reports as a directory is judged safe, so the
claim that directories always yield a false verdict regardless of the
override is refuted by this concrete input. -/
theorem C1_counterexample :
    c1Env.isDirStatus.ok = true ∧ c1Flags.allow_unsafe = true ∧
      safePermissions c1Flags c1Env true = true := by decide

/-- C1 (amended): for every call to safePermissions in which isDirectory
reports the path as a directory, if the global allow-unsafe override is
not set then the verdict is false, whatever the other oracle results and
the require-executable argument are. -/
theorem C1_safePermissions_directory (flags : Flags) (env : PermEnv)
    (executable : Bool) (hdir : env.isDirStatus.ok = true)
    (hflag : flags.allow_unsafe = false) :
    safePermissions flags env executable = false := by
  unfold safePermissions
  split_ifs <;> simp_all

/-- C1 witness: the amended theorem applied at a concrete directory
input with the override unset. -/
theorem C1_witness :
    safePermissions ⟨0, 0, false, true⟩ c1Env true = false :=
  C1_safePermissions_directory ⟨0, 0, false, true⟩ c1Env true
    (by decide) (by decide)

/-! ## Claim C5 -/

/-- C5 counterexample: translating the empty pattern does not return the
empty pattern; with cwd /c and an identity canonicalizer it returns /c,
because the empty pattern passes the relative-path test (the read of
position zero of the empty string yields the null character, which is
not a tilde) and boost path append of an empty component leaves the cwd
unchanged. -/
theorem C5_counterexample :
    replaceGlobWildcards c5Env globAll [] = ['/', 'c'] ∧
      replaceGlobWildcards c5Env globAll [] ≠ ([] : Str) := by decide

/-- C5 (amended): translating the empty pattern returns the current
working directory, not the empty string: for every wildcard-free,
already-canonical, nonempty cwd the result is exactly the cwd, under
every GlobLimits setting. -/
theorem C5_empty_pattern_cwd (env : FsEnv) (limits : GlobLimits)
    (hne : env.cwd ≠ [])
    (hstar : ∀ c ∈ env.cwd, c ≠ '*')
    (hcanon : env.canonical env.cwd = some env.cwd) :
    replaceGlobWildcards env limits [] = env.cwd := by
  have hbase : baseOf env.cwd = env.cwd := by
    unfold baseOf
    exact List.takeWhile_eq_self_iff.mpr (fun c hc => by
      simpa using hstar c hc)
  have hq2 : translateQ2 env [] = env.cwd := rfl
  unfold replaceGlobWildcards
  rw [hq2, hbase]
  rw [if_pos (List.length_pos.mpr hne)]
  apply spliceCanon_of_canonBase_eq
  unfold canonBase
  rw [hbase]
  by_cases hnc : limits.noCanon = true
  · rw [if_pos hnc]
  · rw [if_neg hnc, hcanon]
    simp

/-- C5 witness: the amended theorem applied at the concrete oracle with
cwd /c and the identity canonicalizer. -/
theorem C5_witness : replaceGlobWildcards c5Env globAll [] = c5Env.cwd :=
  C5_empty_pattern_cwd c5Env globAll (by decide) (by decide) rfl

/-! ## Claim C6 -/

/-- C6 counterexample: the two-character pattern ab is nonempty, not
absolute and does not start with a tilde, yet its translation is ab
itself, which does not begin with the cwd /c: the relative-path test of
the source requires a length greater than three, so short patterns are
never prefixed with the cwd. -/
theorem C6_counterexample :
    (['a', 'b'] : Str) ≠ [] ∧ 'a' ≠ '/' ∧ 'a' ≠ '\\' ∧ 'a' ≠ '~' ∧
      replaceGlobWildcards c6Env globAll ['a', 'b'] = ['a', 'b'] ∧
      ¬ c6Env.cwd <+: replaceGlobWildcards c6Env globAll ['a', 'b'] := by
  decide

/-- C6 (amended): for every pattern whose percent-substituted form
passes the relative-path test of the source (length greater than three,
first character not a separator and not a tilde, second character not a
colon, third character not a separator), and whenever every success of
the base canonicalizer stays under the cwd, the translated pattern
begins with the current working directory. -/
theorem C6_relative_prefixed_cwd (env : FsEnv) (limits : GlobLimits)
    (p : Str) (hrel : relativeTest (substPercent p) = true)
    (hcanon : ∀ s r, env.canonical s = some r → env.cwd <+: r) :
    env.cwd <+: replaceGlobWildcards env limits p := by
  have hq2 : translateQ2 env p = pathAppend env.cwd (substPercent p) := by
    unfold translateQ2
    rw [if_pos hrel]
  unfold replaceGlobWildcards
  rw [hq2]
  split_ifs with h1
  · exact cwd_prefix_spliceCanon env limits _ (prefix_pathAppend _ _) hcanon
  · exact prefix_pathAppend _ _

/-- C6 witness: the amended theorem applied to the four-character
relative pattern abcd with a canonicalizer that always fails. -/
theorem C6_witness :
    c6Env.cwd <+: replaceGlobWildcards c6Env globAll ['a', 'b', 'c', 'd'] :=
  C6_relative_prefixed_cwd c6Env globAll ['a', 'b', 'c', 'd'] (by decide)
    (fun _ _ h => nomatch h)

/-! ## Claim C7 -/

theorem translate_abs_canon (env : FsEnv) (limits : GlobLimits) (p : Str)
    (hhead : (substPercent p).headD nullChar = '/')
    (hcanon : env.canonical (baseOf (substPercent p)) =
      some (baseOf (substPercent p))) :
    replaceGlobWildcards env limits p = substPercent p := by
  obtain ⟨t, hq⟩ : ∃ t, substPercent p = '/' :: t := by
    cases hqe : substPercent p with
    | nil => rw [hqe] at hhead; exact absurd hhead (by decide)
    | cons c t =>
      rw [hqe] at hhead
      simp only [List.headD_cons] at hhead
      exact ⟨t, by rw [hhead]⟩
  have hrel : relativeTest (substPercent p) = false := by
    rw [hq]
    simp [relativeTest]
  have hq2 : translateQ2 env p = substPercent p := by
    unfold translateQ2
    rw [hrel]
    simp
  have hbase : ∃ b, baseOf (substPercent p) = '/' :: b := by
    rw [hq]
    exact ⟨t.takeWhile (· != '*'), by simp [baseOf, List.takeWhile_cons]⟩
  obtain ⟨b, hb⟩ := hbase
  unfold replaceGlobWildcards
  rw [hq2]
  rw [if_pos (by rw [hb]; simp)]
  apply spliceCanon_of_canonBase_eq
  unfold canonBase
  by_cases hnc : limits.noCanon = true
  · rw [if_pos hnc]
  · rw [if_neg hnc, hcanon]
    simp

/-- C7: the translator is idempotent on absolute patterns whose
pre-wildcard base is already canonical: if the percent-substituted
pattern starts with a separator and the canonicalizer maps its base to
itself, translating twice equals translating once, for every GlobLimits
setting. -/
theorem C7_translate_idempotent (env : FsEnv) (limits : GlobLimits) (p : Str)
    (habs : (substPercent p).headD nullChar = '/')
    (hcanon : env.canonical (baseOf (substPercent p)) =
      some (baseOf (substPercent p))) :
    replaceGlobWildcards env limits (replaceGlobWildcards env limits p) =
      replaceGlobWildcards env limits p := by
  have h1 : replaceGlobWildcards env limits p = substPercent p :=
    translate_abs_canon env limits p habs hcanon
  have hidem := substPercent_idem p
  have h2 : replaceGlobWildcards env limits (substPercent p) =
      substPercent p := by
    have hgen := translate_abs_canon env limits (substPercent p)
    rw [hidem] at hgen
    exact hgen habs hcanon
  rw [h1, h2]

/-- C7 witness: the idempotence theorem applied to the absolute pattern
with a star, under the identity canonicalizer oracle. -/
theorem C7_witness :
    replaceGlobWildcards c5Env globAll
        (replaceGlobWildcards c5Env globAll ['/', 'd', '*', 'x']) =
      replaceGlobWildcards c5Env globAll ['/', 'd', '*', 'x'] :=
  C7_translate_idempotent c5Env globAll ['/', 'd', '*', 'x'] (by decide) rfl

/-! ## Stream loop lemmas -/

theorem streamRead_stop (blockSize readMax : Nat) (stream : List Nat)
    (total : Nat) (h : blockSize = 0 ∨ stream = []) :
    streamRead blockSize readMax stream total = ([], okStatus) := by
  rw [streamRead]
  rw [dif_pos h]

theorem streamRead_hit (blockSize readMax : Nat) (stream : List Nat)
    (total : Nat) (h1 : ¬(blockSize = 0 ∨ stream = []))
    (h2 : readMax ≤ total + (stream.take blockSize).length) :
    streamRead blockSize readMax stream total = ([], readLimitStatus) := by
  rw [streamRead]
  rw [dif_neg h1, if_pos h2]

theorem streamRead_go (blockSize readMax : Nat) (stream : List Nat)
    (total : Nat) (h1 : ¬(blockSize = 0 ∨ stream = []))
    (h2 : ¬ readMax ≤ total + (stream.take blockSize).length) :
    streamRead blockSize readMax stream total =
      ((stream.take blockSize) ::
          (streamRead blockSize readMax (stream.drop blockSize)
            (total + (stream.take blockSize).length)).1,
        (streamRead blockSize readMax (stream.drop blockSize)
          (total + (stream.take blockSize).length)).2) := by
  rw [streamRead]
  rw [dif_neg h1, if_neg h2]

theorem streamRead_limit :
    ∀ (n blockSize readMax : Nat) (stream : List Nat) (total : Nat),
      stream.length ≤ n → blockSize ≠ 0 → stream ≠ [] →
      readMax ≤ total + stream.length →
      (streamRead blockSize readMax stream total).2 = readLimitStatus := by
  intro n
  induction n with
  | zero =>
    intro bs rm s t hlen _ hne _
    exact absurd (List.length_eq_zero.mp (Nat.le_zero.mp hlen)) hne
  | succ n ih =>
    intro bs rm s t hlen hbs hne hrm
    have hc : ¬(bs = 0 ∨ s = []) := by
      push_neg
      exact ⟨hbs, hne⟩
    by_cases hlim : rm ≤ t + (s.take bs).length
    · rw [streamRead_hit bs rm s t hc hlim]
    · rw [streamRead_go bs rm s t hc hlim]
      have hbpos : 0 < bs := Nat.pos_of_ne_zero hbs
      have hspos : 0 < s.length := List.length_pos.mpr hne
      have htk : (s.take bs).length = min bs s.length := List.length_take bs s
      have hblt : bs < s.length := by omega
      apply ih
      · rw [List.length_drop]
        omega
      · exact hbs
      · rw [← List.length_pos, List.length_drop]
        omega
      · rw [List.length_drop]
        omega

theorem streamRead_delivered :
    ∀ (n blockSize readMax : Nat) (stream : List Nat) (total : Nat),
      stream.length ≤ n →
      (streamRead blockSize readMax stream total).1 ≠ [] →
      total + (((streamRead blockSize readMax stream total).1).map
        List.length).sum < readMax := by
  intro n
  induction n with
  | zero =>
    intro bs rm s t hlen hne
    rw [streamRead_stop bs rm s t
      (Or.inr (List.length_eq_zero.mp (Nat.le_zero.mp hlen)))] at hne
    exact absurd rfl hne
  | succ n ih =>
    intro bs rm s t hlen hne
    by_cases hc : bs = 0 ∨ s = []
    · rw [streamRead_stop bs rm s t hc] at hne
      exact absurd rfl hne
    · by_cases hlim : rm ≤ t + (s.take bs).length
      · rw [streamRead_hit bs rm s t hc hlim] at hne
        exact absurd rfl hne
      · rw [streamRead_go bs rm s t hc hlim] at hne ⊢
        have hbs : bs ≠ 0 := fun hb => hc (Or.inl hb)
        have hbpos : 0 < bs := Nat.pos_of_ne_zero hbs
        have hspos : 0 < s.length :=
          List.length_pos.mpr (fun hs => hc (Or.inr hs))
        have hdlen : (s.drop bs).length ≤ n := by
          rw [List.length_drop]
          omega
        by_cases hrec :
            (streamRead bs rm (s.drop bs) (t + (s.take bs).length)).1 = []
        · rw [hrec]
          simp only [List.map_cons, List.map_nil, List.sum_cons,
            List.sum_nil]
          omega
        · have := ih bs rm (s.drop bs) (t + (s.take bs).length) hdlen hrec
          simp only [List.map_cons, List.sum_cons]
          omega

/-! ## readFile path lemmas -/

theorem readFile_invalid (flags : Flags) (env : ReadEnv)
    (size blockSize : Nat) (dryRun preserveTime : Bool)
    (h : env.fdValid = false) :
    readFile flags env size blockSize dryRun preserveTime =
      ⟨⟨1, "Cannot open file for reading"⟩, [], env.state⟩ := by
  unfold readFile
  rw [if_pos (by simp [h])]

theorem readFile_over_ceiling (flags : Flags) (env : ReadEnv)
    (size blockSize : Nat) (dryRun preserveTime : Bool)
    (hvalid : env.fdValid = true)
    (hgt : effectiveCeiling flags env < determinedSize env size) :
    readFile flags env size blockSize dryRun preserveTime =
      ⟨readLimitStatus, [], env.state⟩ := by
  unfold readFile
  rw [if_neg (show ¬((!env.fdValid) = true) by simp [hvalid]), if_pos hgt]

theorem readFile_dryrun (flags : Flags) (env : ReadEnv)
    (size blockSize : Nat) (preserveTime : Bool)
    (hvalid : env.fdValid = true)
    (hle : determinedSize env size ≤ effectiveCeiling flags env) :
    readFile flags env size blockSize true preserveTime =
      ⟨⟨0, env.canonicalPath⟩, [], env.state⟩ := by
  unfold readFile
  rw [if_neg (show ¬((!env.fdValid) = true) by simp [hvalid]),
    if_neg (show ¬(effectiveCeiling flags env < determinedSize env size)
      by omega),
    if_pos rfl]

theorem readFile_singleshot (flags : Flags) (env : ReadEnv)
    (size blockSize : Nat) (preserveTime : Bool)
    (hvalid : env.fdValid = true)
    (hnz : determinedSize env size ≠ 0)
    (hle : determinedSize env size ≤ effectiveCeiling flags env) :
    readFile flags env size blockSize false preserveTime =
      ⟨okStatus,
        [env.state.bytes.take (determinedSize env size) ++
          List.replicate
            (determinedSize env size - env.state.bytes.length) 0],
        restoreTimes flags preserveTime env.state.times
          (afterReadState env)⟩ := by
  unfold readFile
  rw [if_neg (show ¬((!env.fdValid) = true) by simp [hvalid]),
    if_neg (show ¬(effectiveCeiling flags env < determinedSize env size)
      by omega),
    if_neg (show ¬(false = true) by simp),
    if_neg hnz]

theorem readFile_stream_fail (flags : Flags) (env : ReadEnv)
    (size blockSize : Nat) (preserveTime : Bool)
    (hvalid : env.fdValid = true)
    (hz : determinedSize env size = 0)
    (hfail : (streamRead blockSize (effectiveCeiling flags env)
      env.state.bytes 0).2.ok = false) :
    readFile flags env size blockSize false preserveTime =
      ⟨(streamRead blockSize (effectiveCeiling flags env)
          env.state.bytes 0).2,
        (streamRead blockSize (effectiveCeiling flags env)
          env.state.bytes 0).1,
        afterReadState env⟩ := by
  unfold readFile
  rw [if_neg (show ¬((!env.fdValid) = true) by simp [hvalid]),
    if_neg (show ¬(effectiveCeiling flags env < determinedSize env size)
      by omega),
    if_neg (show ¬(false = true) by simp),
    if_pos hz,
    if_neg (show ¬((streamRead blockSize (effectiveCeiling flags env)
      env.state.bytes 0).2.ok = true) by simp [hfail])]

theorem readFile_stream_ok (flags : Flags) (env : ReadEnv)
    (size blockSize : Nat) (preserveTime : Bool)
    (hvalid : env.fdValid = true)
    (hz : determinedSize env size = 0)
    (hok : (streamRead blockSize (effectiveCeiling flags env)
      env.state.bytes 0).2.ok = true) :
    readFile flags env size blockSize false preserveTime =
      ⟨okStatus,
        (streamRead blockSize (effectiveCeiling flags env)
          env.state.bytes 0).1,
        restoreTimes flags preserveTime env.state.times
          (afterReadState env)⟩ := by
  unfold readFile
  rw [if_neg (show ¬((!env.fdValid) = true) by simp [hvalid]),
    if_neg (show ¬(effectiveCeiling flags env < determinedSize env size)
      by omega),
    if_neg (show ¬(false = true) by simp),
    if_pos hz,
    if_pos hok]

/-! ## Claim C2 -/

/-- C2 counterexample: a root-owned four-byte regular file read under a
four-byte ceiling sits exactly at the ceiling, yet the single-shot read
succeeds and delivers the full content, because the source rejects only
sizes strictly greater than the ceiling; the claim that a size at the
ceiling fails is therefore false at this input. -/
theorem C2_counterexample :
    determinedSize c2Env 0 = effectiveCeiling c2Flags c2Env ∧
    determinedSize c2Env 0 ≠ 0 ∧
    (readFile c2Flags c2Env 0 4096 false false).status.ok = true ∧
    (readFile c2Flags c2Env 0 4096 false false).delivered =
      [[9, 9, 9, 9]] := by
  decide

/-- C2 (amended): on the single-shot path (descriptor valid, determined
size nonzero, no dry run), if the determined size is at most the
effective ceiling and the stream holds exactly that many bytes, the call
succeeds and delivers exactly the file content in one chunk; if the
determined size is strictly above the ceiling, the call fails with the
read-limit status and delivers nothing, leaving the file state
untouched. -/
theorem C2_singleshot_ceiling (flags : Flags) (env : ReadEnv)
    (size blockSize : Nat) (preserveTime : Bool)
    (hvalid : env.fdValid = true)
    (hnz : determinedSize env size ≠ 0) :
    (determinedSize env size ≤ effectiveCeiling flags env →
      env.state.bytes.length = determinedSize env size →
      (readFile flags env size blockSize false preserveTime).status.ok =
          true ∧
        (readFile flags env size blockSize false preserveTime).delivered =
          [env.state.bytes]) ∧
    (effectiveCeiling flags env < determinedSize env size →
      readFile flags env size blockSize false preserveTime =
        ⟨readLimitStatus, [], env.state⟩) := by
  constructor
  · intro hle hlen
    rw [readFile_singleshot flags env size blockSize preserveTime
      hvalid hnz hle]
    refine ⟨rfl, ?_⟩
    rw [← hlen]
    simp [List.take_length, Nat.sub_self]
  · intro hgt
    exact readFile_over_ceiling flags env size blockSize false
      preserveTime hvalid hgt

/-- C2 witness: the amended theorem applied to the four-byte file under
the default fifty-mebibyte ceiling. -/
theorem C2_witness :
    (readFile kDefaultFlags c2Env 0 4096 false false).status.ok = true ∧
    (readFile kDefaultFlags c2Env 0 4096 false false).delivered =
      [c2Env.state.bytes] :=
  (C2_singleshot_ceiling kDefaultFlags c2Env 0 4096 false (by decide)
    (by decide)).1 (by decide) (by decide)

/-! ## Claim C3 -/

/-- C3: on the streamed path (descriptor valid, determined size zero, no
dry run, positive block size), when the total length of the stream is
strictly above the effective ceiling the call fails with the read-limit
status, and the chunks delivered to the sink before the failure keep the
running byte total strictly under the ceiling (so at most one chunk
beyond the last chunk that kept the total under the ceiling reaches the
sink; in fact none does). -/
theorem C3_stream_over_ceiling (flags : Flags) (env : ReadEnv)
    (size blockSize : Nat) (preserveTime : Bool)
    (hvalid : env.fdValid = true)
    (hz : determinedSize env size = 0)
    (hbs : blockSize ≠ 0)
    (hover : effectiveCeiling flags env < env.state.bytes.length) :
    (readFile flags env size blockSize false preserveTime).status =
      readLimitStatus ∧
    ((readFile flags env size blockSize false preserveTime).delivered =
        [] ∨
      ((readFile flags env size blockSize false
          preserveTime).delivered.map List.length).sum <
        effectiveCeiling flags env) := by
  have hne : env.state.bytes ≠ [] := by
    intro hcon
    rw [hcon] at hover
    simp at hover
  have herr : (streamRead blockSize (effectiveCeiling flags env)
      env.state.bytes 0).2 = readLimitStatus :=
    streamRead_limit env.state.bytes.length blockSize
      (effectiveCeiling flags env) env.state.bytes 0 le_rfl hbs hne
      (by omega)
  have hread := readFile_stream_fail flags env size blockSize
    preserveTime hvalid hz (by rw [herr]; rfl)
  rw [hread]
  refine ⟨herr, ?_⟩
  by_cases hd : (streamRead blockSize (effectiveCeiling flags env)
      env.state.bytes 0).1 = []
  · exact Or.inl hd
  · refine Or.inr ?_
    have := streamRead_delivered env.state.bytes.length blockSize
      (effectiveCeiling flags env) env.state.bytes 0 le_rfl hd
    simpa using this

/-- C3 witness: the theorem applied to a three-byte stream read in
one-byte chunks under a two-byte ceiling. -/
theorem C3_witness :
    (readFile c3Flags c3Env 0 1 false false).status = readLimitStatus ∧
    ((readFile c3Flags c3Env 0 1 false false).delivered = [] ∨
      ((readFile c3Flags c3Env 0 1 false false).delivered.map
        List.length).sum < effectiveCeiling c3Flags c3Env) :=
  C3_stream_over_ceiling c3Flags c3Env 0 1 false (by decide) (by decide)
    (by decide) (by decide)

/-! ## Claim C8 -/

/-- C8: for every successful readFile call with preserve_time requested
and forensic preservation not globally disabled, the final file state
equals the initial one: the timestamps are restored to their captured
values and the content is untouched. -/
theorem C8_preserve_time (flags : Flags) (env : ReadEnv)
    (size blockSize : Nat) (dryRun : Bool)
    (hdf : flags.disable_forensic = false)
    (hok : (readFile flags env size blockSize dryRun true).status.ok =
      true) :
    (readFile flags env size blockSize dryRun true).final = env.state := by
  have hrestore : restoreTimes flags true env.state.times
      (afterReadState env) = env.state := by
    unfold restoreTimes afterReadState
    rw [hdf]
    rfl
  by_cases h1 : env.fdValid = true
  case neg =>
    have h1f : env.fdValid = false := by
      cases henv : env.fdValid
      · rfl
      · exact absurd henv h1
    rw [readFile_invalid flags env size blockSize dryRun true h1f] at hok
    exact absurd hok (by simp [Status.ok])
  case pos =>
  by_cases h2 : effectiveCeiling flags env < determinedSize env size
  case pos =>
    rw [readFile_over_ceiling flags env size blockSize dryRun true h1 h2]
      at hok
    exact absurd hok (by simp [Status.ok, readLimitStatus])
  case neg =>
  have hle : determinedSize env size ≤ effectiveCeiling flags env := by
    omega
  by_cases h3 : dryRun = true
  case pos =>
    rw [h3, readFile_dryrun flags env size blockSize true h1 hle]
  case neg =>
  have h3f : dryRun = false := by
    cases hd : dryRun
    · rfl
    · exact absurd hd h3
  rw [h3f] at hok ⊢
  by_cases h4 : determinedSize env size = 0
  case pos =>
    by_cases h5 : (streamRead blockSize (effectiveCeiling flags env)
        env.state.bytes 0).2.ok = true
    case pos =>
      rw [readFile_stream_ok flags env size blockSize true h1 h4 h5]
      exact hrestore
    case neg =>
      have h5f : (streamRead blockSize (effectiveCeiling flags env)
          env.state.bytes 0).2.ok = false := by
        cases hs : (streamRead blockSize (effectiveCeiling flags env)
            env.state.bytes 0).2.ok
        · rfl
        · exact absurd hs h5
      rw [readFile_stream_fail flags env size blockSize true h1 h4 h5f]
        at hok
      exact absurd hok h5
  case neg =>
    rw [readFile_singleshot flags env size blockSize true h1 h4 hle]
    exact hrestore

/-- C8 witness: the theorem applied to a successful single-shot read of
the four-byte file with forensic preservation enabled. -/
theorem C8_witness :
    (readFile c8Flags c2Env 0 4096 false true).final = c2Env.state :=
  C8_preserve_time c8Flags c2Env 0 4096 false (by decide) (by decide)

/-! ## Claim C9 -/

/-- C9 counterexample: with a zero ceiling and an empty streamed source
the total stream length equals the ceiling, yet the call succeeds: the
do-while loop reads zero bytes, never updates the running total, and
exits without the limit check firing; so the claim that a streamed
source whose total length equals the ceiling always fails is false at
this input. -/
theorem C9_counterexample :
    c9Env.state.bytes.length = effectiveCeiling c9Flags c9Env ∧
    (readFile c9Flags c9Env 0 4096 false false).status.ok = true := by
  refine ⟨by decide, ?_⟩
  have h0 : streamRead 4096 (effectiveCeiling c9Flags c9Env)
      c9Env.state.bytes 0 = ([], okStatus) :=
    streamRead_stop 4096 (effectiveCeiling c9Flags c9Env)
      c9Env.state.bytes 0 (Or.inr rfl)
  rw [readFile_stream_ok c9Flags c9Env 0 4096 false (by decide)
    (by decide) (by rw [h0]; rfl)]
  rfl

/-- C9 (amended): when the effective ceiling is positive, the streamed
path aborts with the read-limit status as soon as the running total
reaches the ceiling exactly, the chunk whose arrival made the total
reach it is never delivered (every delivered byte total stays strictly
under the ceiling), and a nonempty streamed source whose total length
equals the ceiling fails while a known-size file of exactly the ceiling
size succeeds. -/
theorem C9_exact_ceiling (flags : Flags) (env1 env2 : ReadEnv)
    (size1 size2 blockSize : Nat) (pt1 pt2 : Bool)
    (h1v : env1.fdValid = true)
    (h1z : determinedSize env1 size1 = 0)
    (hbs : blockSize ≠ 0)
    (h1len : env1.state.bytes.length = effectiveCeiling flags env1)
    (h1pos : 0 < effectiveCeiling flags env1)
    (h2v : env2.fdValid = true)
    (h2eq : determinedSize env2 size2 = effectiveCeiling flags env2)
    (h2nz : determinedSize env2 size2 ≠ 0) :
    (readFile flags env1 size1 blockSize false pt1).status =
      readLimitStatus ∧
    ((readFile flags env1 size1 blockSize false pt1).delivered.map
      List.length).sum < effectiveCeiling flags env1 ∧
    (readFile flags env2 size2 blockSize false pt2).status.ok = true := by
  have hne : env1.state.bytes ≠ [] := by
    intro hcon
    rw [hcon] at h1len
    simp only [List.length_nil] at h1len
    omega
  have herr : (streamRead blockSize (effectiveCeiling flags env1)
      env1.state.bytes 0).2 = readLimitStatus :=
    streamRead_limit env1.state.bytes.length blockSize
      (effectiveCeiling flags env1) env1.state.bytes 0 le_rfl hbs hne
      (by omega)
  have hread := readFile_stream_fail flags env1 size1 blockSize pt1
    h1v h1z (by rw [herr]; rfl)
  refine ⟨by rw [hread]; exact herr, ?_, ?_⟩
  · rw [hread]
    by_cases hd : (streamRead blockSize (effectiveCeiling flags env1)
        env1.state.bytes 0).1 = []
    · simpa [hd] using h1pos
    · have := streamRead_delivered env1.state.bytes.length blockSize
        (effectiveCeiling flags env1) env1.state.bytes 0 le_rfl hd
      simpa using this
  · rw [readFile_singleshot flags env2 size2 blockSize pt2 h2v h2nz
      (le_of_eq h2eq)]
    rfl

/-- C9 witness: the amended theorem applied, under a four-byte ceiling,
to a four-byte stream read in one-byte chunks and to the four-byte
known-size file. -/
theorem C9_witness :
    (readFile c2Flags c9WitEnv 0 1 false false).status =
      readLimitStatus ∧
    ((readFile c2Flags c9WitEnv 0 1 false false).delivered.map
      List.length).sum < effectiveCeiling c2Flags c9WitEnv ∧
    (readFile c2Flags c2Env 0 1 false false).status.ok = true :=
  C9_exact_ceiling c2Flags c9WitEnv c2Env 0 0 1 false false (by decide)
    (by decide) (by decide) (by decide) (by decide) (by decide)
    (by decide) (by decide)

/-! ## Claim C4 -/

theorem genGlobsLoop_count_le (pg : Str → List Str) :
    ∀ (fuel : Nat) (path : Str) (results : List Str),
      (genGlobsLoop pg fuel path results).2 ≤ fuel := by
  intro fuel
  induction fuel with
  | zero =>
    intro path results
    simp [genGlobsLoop]
  | succ n ih =>
    intro path results
    simp only [genGlobsLoop]
    split_ifs
    · simp
    · simpa using Nat.add_le_add_right (ih _ _) 1

/-- C4: for every platform-glob oracle, every filesystem oracle, every
GlobLimits setting, every pattern and every preexisting result list, the
recursive expansion loop of genGlobs performs at most kMaxRecursiveGlobs
iterations (in fact at most one fewer, since the counter is
pre-incremented), and resolveFilePattern still returns the OK status, so
reaching the bound is not an error.  Termination itself is witnessed by
genGlobsLoop being a total function of its fuel. -/
theorem C4_genGlobs_bounded (env : FsEnv) (pg : Str → List Str)
    (limits : GlobLimits) (path : Str) (results : List Str) :
    (genGlobs env pg path results limits).2 ≤ kMaxRecursiveGlobs ∧
    (resolveFilePattern env pg path results limits).2 = okStatus := by
  constructor
  · show (genGlobsLoop pg (kMaxRecursiveGlobs - 1)
      (replaceGlobWildcards env limits path) results).2 ≤ kMaxRecursiveGlobs
    exact le_trans (genGlobsLoop_count_le pg _ _ _) (Nat.sub_le _ _)
  · rfl

/-! ## Claim C10 -/

/-- C10: for every nonempty accumulated match, the index
found.length - 1 used by the final kind filter of genGlobs is in
bounds, the defaulted access lastCharD agrees with the total getLast,
and the retention predicate keepMatch equals its total counterpart
stated through getLast, so the out-of-range branch of the embedded
access is unreachable whenever the platform glob produces only nonempty
paths. -/
theorem C10_filter_total (limits : GlobLimits) (found : Str)
    (h : found ≠ []) :
    found.length - 1 < found.length ∧
    lastCharD found = found.getLast h ∧
    keepMatch limits found =
      (((found.getLast h == '/' || found.getLast h == '\\') &&
          limits.folders) ||
        ((found.getLast h != '/' && found.getLast h != '\\') &&
          limits.files)) := by
  have hpos : 0 < found.length := List.length_pos.mpr h
  have hlt : found.length - 1 < found.length := by omega
  have hlast : lastCharD found = found.getLast h := by
    unfold lastCharD
    rw [List.getD_eq_getElem found nullChar hlt]
    rw [List.getLast_eq_getElem (l := found) h]
  refine ⟨hlt, hlast, ?_⟩
  unfold keepMatch
  rw [hlast]

/-- C10 witness: the theorem applied to the one-character match a. -/
theorem C10_witness :
    (['a'] : Str).length - 1 < (['a'] : Str).length ∧
    lastCharD ['a'] = (['a'] : Str).getLast (by decide) ∧
    keepMatch globAll ['a'] =
      ((((['a'] : Str).getLast (by decide) == '/' ||
          (['a'] : Str).getLast (by decide) == '\\') && globAll.folders) ||
        (((['a'] : Str).getLast (by decide) != '/' &&
          (['a'] : Str).getLast (by decide) != '\\') && globAll.files)) :=
  C10_filter_total globAll ['a'] (by decide)

end Osquery
